import Mathlib

/-!
Verification of the tunnel message protocol layer declared in
`src/cli/src/tunnels/protocol.rs`.

The source file declares the protocol's data model as Rust structs and enums
with serde derive attributes; serialization and deserialization are the
functions serde derives from those attributes.  We embed the wire data as a
self-describing `Value` tree (maps, arrays, strings, integers, booleans,
raw byte strings, null) and translate the serde-derived codecs faithfully:

* `#[serde(tag = "method", content = "params")]` enums are adjacently
  tagged: a map carrying the variant name under `"method"` and the payload
  under `"params"`; a unit variant (`prune`) omits or nulls the content,
  every other variant requires it.
* Derived struct deserializers read a map, fail on a missing field unless
  the field is an `Option` (absent or null gives `none`) or carries
  `#[serde(default)]`, and ignore unknown fields.
* `#[serde(with = "serde_bytes")]` fields use the raw byte-string form of
  the wire format; a plain `Vec<u8>` field is a sequence of integers.
* `#[serde(flatten)]` merges the enum's tag/content fields into the
  surrounding request map.

Rust machine integers are embedded as `Fin` of their range (`u8`, `u16`,
`u32`) or as range-checked `Int` (`i32`); `HashMap<String, String>` is
embedded as its association list in wire order.
-/

namespace Protocol

/-- A self-describing wire value: the transport-agnostic form produced and
consumed by the serde codecs (maps, arrays, strings, integers, booleans,
raw byte strings, and null). -/
inductive Value where
  | null : Value
  | bool (b : Bool) : Value
  | int (n : Int) : Value
  | str (s : String) : Value
  | bytes (bs : List (Fin 256)) : Value
  | arr (vs : List Value) : Value
  | obj (fields : List (String × Value)) : Value

/-- Modelled from the spec: the decode error taxonomy of the envelope codec
(the dispatch code classifying serde failures is not under `src/`).
`unknownMethod` for an unrecognized tag, `malformedParams` for a payload
that does not match the shape the tag requires, `truncated` for an input
that is not a complete, well-formed envelope. -/
inductive DecodeError where
  | unknownMethod : DecodeError
  | malformedParams : DecodeError
  | truncated : DecodeError
  deriving Repr, DecidableEq

/-- First-match field lookup in a wire map, as a serde map visitor binds the
first occurrence of each known key. -/
def lookupField : List (String × Value) → String → Option Value
  | [], _ => none
  | (k, v) :: rest, key => if k = key then some v else lookupField rest key

/-- Deserialize a `u8` from an integer wire value, failing outside `0..=255`. -/
def decodeU8 : Value → Except DecodeError (Fin 256)
  | .int n =>
    if h : 0 ≤ n ∧ n.toNat < 256 then .ok ⟨n.toNat, h.2⟩
    else .error .malformedParams
  | _ => .error .malformedParams

/-- Deserialize a `u16` from an integer wire value, failing outside `0..=65535`. -/
def decodeU16 : Value → Except DecodeError (Fin 65536)
  | .int n =>
    if h : 0 ≤ n ∧ n.toNat < 65536 then .ok ⟨n.toNat, h.2⟩
    else .error .malformedParams
  | _ => .error .malformedParams

/-- Deserialize a `u32` from an integer wire value, failing outside `0..=4294967295`. -/
def decodeU32 : Value → Except DecodeError (Fin 4294967296)
  | .int n =>
    if h : 0 ≤ n ∧ n.toNat < 4294967296 then .ok ⟨n.toNat, h.2⟩
    else .error .malformedParams
  | _ => .error .malformedParams

/-- Deserialize an `i32` from an integer wire value, failing outside the
signed 32-bit range (the condition is phrased over `Nat` magnitudes; it is
equivalent to `-2147483648 ≤ n ∧ n < 2147483648`). -/
def decodeI32 : Value → Except DecodeError Int
  | .int n =>
    if n.toNat < 2147483648 ∧ (-n).toNat ≤ 2147483648 then .ok n
    else .error .malformedParams
  | _ => .error .malformedParams

/-- Deserialize a `bool`. -/
def decodeBool : Value → Except DecodeError Bool
  | .bool b => .ok b
  | _ => .error .malformedParams

/-- Deserialize a `String`. -/
def decodeString : Value → Except DecodeError String
  | .str s => .ok s
  | _ => .error .malformedParams

/-- Deserialize a `#[serde(with = "serde_bytes")] Vec<u8>`: the raw
byte-string wire form, not a sequence of integers. -/
def decodeBytes : Value → Except DecodeError (List (Fin 256))
  | .bytes bs => .ok bs
  | _ => .error .malformedParams

/-- Deserialize the elements of a plain `Vec<u8>` (no `serde_bytes`): each
byte is an individually encoded integer. -/
def decodeByteSeqList : List Value → Except DecodeError (List (Fin 256))
  | [] => .ok []
  | v :: rest => do
    let b ← decodeU8 v
    let tail ← decodeByteSeqList rest
    .ok (b :: tail)

/-- Deserialize a plain `Vec<u8>` (no `serde_bytes`): a wire array of
individually encoded integers. -/
def decodeByteSeq : Value → Except DecodeError (List (Fin 256))
  | .arr vs => decodeByteSeqList vs
  | _ => .error .malformedParams

/-- Deserialize the elements of a `Vec<String>`. -/
def decodeStringListAux : List Value → Except DecodeError (List String)
  | [] => .ok []
  | v :: rest => do
    let s ← decodeString v
    let tail ← decodeStringListAux rest
    .ok (s :: tail)

/-- Deserialize a `Vec<String>`. -/
def decodeStringList : Value → Except DecodeError (List String)
  | .arr vs => decodeStringListAux vs
  | _ => .error .malformedParams

/-- Deserialize one `(String, String)` tuple: serde encodes a tuple as a
two-element array. -/
def decodeStringPair : Value → Except DecodeError (String × String)
  | .arr [a, b] => do
    let x ← decodeString a
    let y ← decodeString b
    .ok (x, y)
  | _ => .error .malformedParams

/-- Deserialize the elements of a `Vec<(String, String)>`. -/
def decodeStringPairListAux : List Value → Except DecodeError (List (String × String))
  | [] => .ok []
  | v :: rest => do
    let p ← decodeStringPair v
    let tail ← decodeStringPairListAux rest
    .ok (p :: tail)

/-- Deserialize a `Vec<(String, String)>`. -/
def decodeStringPairList : Value → Except DecodeError (List (String × String))
  | .arr vs => decodeStringPairListAux vs
  | _ => .error .malformedParams

/-- Deserialize the entries of a `HashMap<String, String>`, embedded as its
association list in wire order. -/
def decodeStringMapAux : List (String × Value) → Except DecodeError (List (String × String))
  | [] => .ok []
  | (k, v) :: rest => do
    let s ← decodeString v
    let tail ← decodeStringMapAux rest
    .ok ((k, s) :: tail)

/-- Deserialize a `HashMap<String, String>`: a wire map whose values are
strings. -/
def decodeStringMap : Value → Except DecodeError (List (String × String))
  | .obj fs => decodeStringMapAux fs
  | _ => .error .malformedParams

/-- Modelled from the spec: the release quality channel (`crate::options::Quality`
lives outside `src/`; the spec lists `quality` as the serve request's
quality-channel field). Deserialized from the channel's name string. -/
inductive Quality where
  | stable : Quality
  | exploration : Quality
  | insiders : Quality
  deriving Repr, DecidableEq

/-- Deserialize a `Quality` from its channel name. -/
def decodeQuality : Value → Except DecodeError Quality
  | .str s =>
    if s = "stable" then .ok .stable
    else if s = "exploration" then .ok .exploration
    else if s = "insiders" then .ok .insiders
    else .error .malformedParams
  | _ => .error .malformedParams

/-- Serialize a `Quality` to its channel name. -/
def encodeQuality : Quality → Value
  | .stable => .str "stable"
  | .exploration => .str "exploration"
  | .insiders => .str "insiders"

/-- `HttpBodyParams`: one segment of a chunked HTTP body
(`segment` carries `#[serde(with = "serde_bytes")]`). -/
structure HttpBodyParams where
  segment : List (Fin 256)
  complete : Bool
  req_id : Fin 4294967296
  deriving Repr, DecidableEq

/-- `HttpRequestParams`: the `makehttpreq` payload. -/
structure HttpRequestParams where
  url : String
  method : String
  req_id : Fin 4294967296
  deriving Repr, DecidableEq

/-- `HttpHeadersParams`: status and headers answering a `makehttpreq`. -/
structure HttpHeadersParams where
  status_code : Fin 65536
  headers : List (String × String)
  req_id : Fin 4294967296
  deriving Repr, DecidableEq

/-- `ForwardParams`: the port to forward. -/
structure ForwardParams where
  port : Fin 65536
  deriving Repr, DecidableEq

/-- `UnforwardParams`: the port to stop forwarding. -/
structure UnforwardParams where
  port : Fin 65536
  deriving Repr, DecidableEq

/-- `ServeParams`: the server-start request payload
(`use_local_download` carries `#[serde(default)]`). -/
structure ServeParams where
  socket_id : Fin 65536
  commit_id : Option String
  quality : Quality
  extensions : List String
  use_local_download : Bool
  deriving Repr, DecidableEq

/-- `EmptyResult`: the empty struct used as a unit-like payload. -/
structure EmptyResult where
  deriving Repr, DecidableEq

/-- `UpdateParams`: the apply-update flag. -/
structure UpdateParams where
  do_update : Bool
  deriving Repr, DecidableEq

/-- `ServerMessageParams`: multiplexed channel index plus opaque binary body
(`body` carries `#[serde(with = "serde_bytes")]`). -/
structure ServerMessageParams where
  i : Fin 65536
  body : List (Fin 256)
  deriving Repr, DecidableEq

/-- `RefServerMessageParams`: the borrowed-slice twin of `ServerMessageParams`
used on the serializing side (`body` carries `#[serde(with = "serde_bytes")]`;
the borrow is a copy-avoidance detail, so the embedding owns the bytes). -/
structure RefServerMessageParams where
  i : Fin 65536
  body : List (Fin 256)
  deriving Repr, DecidableEq

/-- `CallServerHttpParams`: a proxied HTTP call against the local server.
`headers` is a `HashMap<String, String>`, embedded as its association list;
`body` is a plain `Option<Vec<u8>>` with no `serde_bytes` attribute. -/
structure CallServerHttpParams where
  path : String
  method : String
  headers : List (String × String)
  body : Option (List (Fin 256))
  deriving Repr, DecidableEq

/-- `ServerLog`: a log line and its severity level (`level: u8`). -/
structure ServerLog where
  line : String
  level : Fin 256
  deriving Repr, DecidableEq

/-- `VersionParams`: implementation version string plus `protocol_version: u32`. -/
structure VersionParams where
  version : String
  protocol_version : Fin 4294967296
  deriving Repr, DecidableEq

/-- `ResponseError`: integer code (`i32`) plus human-readable message. -/
structure ResponseError where
  code : Int
  message : String
  deriving Repr, DecidableEq

/-- `ErrorResponse`: mandatory correlation id plus the error payload. -/
structure ErrorResponse where
  id : Fin 4294967296
  error : ResponseError
  deriving Repr, DecidableEq

/-- `SuccessResponse<T>`: mandatory correlation id plus the typed result. -/
structure SuccessResponse (T : Type) where
  id : Fin 4294967296
  result : T

/-- `ServerRequestMethod`: the server-bound method catalogue, an adjacently
tagged enum (`#[serde(tag = "method", content = "params")]`). -/
inductive ServerRequestMethod where
  | serve (p : ServeParams) : ServerRequestMethod
  | prune : ServerRequestMethod
  | ping (p : EmptyResult) : ServerRequestMethod
  | forward (p : ForwardParams) : ServerRequestMethod
  | unforward (p : UnforwardParams) : ServerRequestMethod
  | gethostname (p : EmptyResult) : ServerRequestMethod
  | update (p : UpdateParams) : ServerRequestMethod
  | servermsg (p : ServerMessageParams) : ServerRequestMethod
  | callserverhttp (p : CallServerHttpParams) : ServerRequestMethod
  | httpheaders (p : HttpHeadersParams) : ServerRequestMethod
  | httpbody (p : HttpBodyParams) : ServerRequestMethod
  deriving Repr, DecidableEq

/-- `ClientRequestMethod`: the client-bound method catalogue, adjacently
tagged with `rename_all = "camelCase"` (the variant names are single
lowercase words, so the wire tags equal the Rust names). -/
inductive ClientRequestMethod where
  | servermsg (p : RefServerMessageParams) : ClientRequestMethod
  | serverlog (p : ServerLog) : ClientRequestMethod
  | makehttpreq (p : HttpRequestParams) : ClientRequestMethod
  | version (p : VersionParams) : ClientRequestMethod
  deriving Repr, DecidableEq

/-- `ToServerRequest`: optional correlation id plus the flattened
server-bound method (`#[serde(flatten)]`). -/
structure ToServerRequest where
  id : Option (Fin 4294967296)
  params : ServerRequestMethod
  deriving Repr, DecidableEq

/-- `ToClientRequest`: optional correlation id plus the flattened
client-bound method (`#[serde(flatten)]`). -/
structure ToClientRequest where
  id : Option (Fin 4294967296)
  params : ClientRequestMethod
  deriving Repr, DecidableEq

/-- A required struct field: serde fails with a missing-field error when the
key is absent. -/
def requiredField (fs : List (String × Value)) (key : String)
    (d : Value → Except DecodeError α) : Except DecodeError α :=
  match lookupField fs key with
  | some v => d v
  | none => .error .malformedParams

/-- An `Option` struct field: absent or null gives `none`, any other value
is deserialized. -/
def optionalField (fs : List (String × Value)) (key : String)
    (d : Value → Except DecodeError α) : Except DecodeError (Option α) :=
  match lookupField fs key with
  | none => .ok none
  | some .null => .ok none
  | some v => (d v).map some

/-- A `#[serde(default)]` struct field: absent gives the type's default,
present values are deserialized as usual. -/
def defaultField (fs : List (String × Value)) (key : String)
    (d : Value → Except DecodeError α) (dflt : α) : Except DecodeError α :=
  match lookupField fs key with
  | none => .ok dflt
  | some v => d v

/-- Serde-derived deserializer for `HttpBodyParams`. -/
def decodeHttpBodyParams : Value → Except DecodeError HttpBodyParams
  | .obj fs => do
    let segment ← requiredField fs "segment" decodeBytes
    let complete ← requiredField fs "complete" decodeBool
    let req_id ← requiredField fs "req_id" decodeU32
    .ok ⟨segment, complete, req_id⟩
  | _ => .error .malformedParams

/-- Serde-derived deserializer for `HttpHeadersParams`. -/
def decodeHttpHeadersParams : Value → Except DecodeError HttpHeadersParams
  | .obj fs => do
    let status_code ← requiredField fs "status_code" decodeU16
    let headers ← requiredField fs "headers" decodeStringPairList
    let req_id ← requiredField fs "req_id" decodeU32
    .ok ⟨status_code, headers, req_id⟩
  | _ => .error .malformedParams

/-- Serde-derived deserializer for `ForwardParams`. -/
def decodeForwardParams : Value → Except DecodeError ForwardParams
  | .obj fs => do
    let port ← requiredField fs "port" decodeU16
    .ok ⟨port⟩
  | _ => .error .malformedParams

/-- Serde-derived deserializer for `UnforwardParams`. -/
def decodeUnforwardParams : Value → Except DecodeError UnforwardParams
  | .obj fs => do
    let port ← requiredField fs "port" decodeU16
    .ok ⟨port⟩
  | _ => .error .malformedParams

/-- Serde-derived deserializer for `ServeParams`: `commit_id` is an
`Option`, `use_local_download` carries `#[serde(default)]` (absent means
`false`), every other field is required. -/
def decodeServeParams : Value → Except DecodeError ServeParams
  | .obj fs => do
    let socket_id ← requiredField fs "socket_id" decodeU16
    let commit_id ← optionalField fs "commit_id" decodeString
    let quality ← requiredField fs "quality" decodeQuality
    let extensions ← requiredField fs "extensions" decodeStringList
    let use_local_download ← defaultField fs "use_local_download" decodeBool false
    .ok ⟨socket_id, commit_id, quality, extensions, use_local_download⟩
  | _ => .error .malformedParams

/-- Serde-derived deserializer for the empty struct `EmptyResult`: a map
(whose fields are all unknown, hence ignored). -/
def decodeEmptyResult : Value → Except DecodeError EmptyResult
  | .obj _ => .ok ⟨⟩
  | _ => .error .malformedParams

/-- Serde-derived deserializer for `UpdateParams`. -/
def decodeUpdateParams : Value → Except DecodeError UpdateParams
  | .obj fs => do
    let do_update ← requiredField fs "do_update" decodeBool
    .ok ⟨do_update⟩
  | _ => .error .malformedParams

/-- Serde-derived deserializer for `ServerMessageParams` (`body` is
`serde_bytes`, so a raw byte string). -/
def decodeServerMessageParams : Value → Except DecodeError ServerMessageParams
  | .obj fs => do
    let i ← requiredField fs "i" decodeU16
    let body ← requiredField fs "body" decodeBytes
    .ok ⟨i, body⟩
  | _ => .error .malformedParams

/-- Serde-derived deserializer for `CallServerHttpParams` (`body` is a plain
`Option<Vec<u8>>` without `serde_bytes`, so an integer sequence). -/
def decodeCallServerHttpParams : Value → Except DecodeError CallServerHttpParams
  | .obj fs => do
    let path ← requiredField fs "path" decodeString
    let method ← requiredField fs "method" decodeString
    let headers ← requiredField fs "headers" decodeStringMap
    let body ← optionalField fs "body" decodeByteSeq
    .ok ⟨path, method, headers, body⟩
  | _ => .error .malformedParams

/-- The recognized server-bound method tags, in catalogue order. -/
def knownServerMethods : List String :=
  ["serve", "prune", "ping", "forward", "unforward", "gethostname",
   "update", "servermsg", "callserverhttp", "httpheaders", "httpbody"]

/-- Adjacently tagged content for a newtype variant: the content field is
required; its absence is a missing-field error. -/
def requireContent (pv : Option Value) (d : Value → Except DecodeError α)
    (k : α → ServerRequestMethod) : Except DecodeError ServerRequestMethod :=
  match pv with
  | some v => (d v).map k
  | none => .error .malformedParams

/-- Serde-derived dispatch on the server-bound method tag: the unit variant
`prune` accepts absent or null content, every newtype variant requires its
params payload, and an unrecognized tag is an unknown-variant error. -/
def dispatchServerMethod (t : String) (pv : Option Value) :
    Except DecodeError ServerRequestMethod :=
  if t = "serve" then requireContent pv decodeServeParams .serve
  else if t = "prune" then
    match pv with
    | none => .ok .prune
    | some .null => .ok .prune
    | some _ => .error .malformedParams
  else if t = "ping" then requireContent pv decodeEmptyResult .ping
  else if t = "forward" then requireContent pv decodeForwardParams .forward
  else if t = "unforward" then requireContent pv decodeUnforwardParams .unforward
  else if t = "gethostname" then requireContent pv decodeEmptyResult .gethostname
  else if t = "update" then requireContent pv decodeUpdateParams .update
  else if t = "servermsg" then requireContent pv decodeServerMessageParams .servermsg
  else if t = "callserverhttp" then
    requireContent pv decodeCallServerHttpParams .callserverhttp
  else if t = "httpheaders" then requireContent pv decodeHttpHeadersParams .httpheaders
  else if t = "httpbody" then requireContent pv decodeHttpBodyParams .httpbody
  else .error .unknownMethod

/-- Serde-derived deserializer for the flattened `ServerRequestMethod`
fields inside a request map: the tag under `"method"`, the content under
`"params"`; a missing or non-string tag leaves the envelope ill-formed. -/
def decodeServerRequestMethodFields (fs : List (String × Value)) :
    Except DecodeError ServerRequestMethod :=
  match lookupField fs "method" with
  | some (.str t) => dispatchServerMethod t (lookupField fs "params")
  | some _ => .error .truncated
  | none => .error .truncated

/-- The optional `id` field of a request envelope: absent or null is `none`;
a present value must be a `u32`, anything else leaves the envelope
ill-formed. -/
def decodeIdField (fs : List (String × Value)) :
    Except DecodeError (Option (Fin 4294967296)) :=
  match lookupField fs "id" with
  | none => .ok none
  | some .null => .ok none
  | some v =>
    match decodeU32 v with
    | .ok n => .ok (some n)
    | .error _ => .error .truncated

/-- Serde-derived deserializer for `ToServerRequest`: the optional `id`
plus the flattened method/params fields. -/
def decodeToServerRequest : Value → Except DecodeError ToServerRequest
  | .obj fs => do
    let i ← decodeIdField fs
    let m ← decodeServerRequestMethodFields fs
    .ok ⟨i, m⟩
  | _ => .error .truncated

/-- Serialize an optional `u32` correlation id: `None` is null (no
`skip_serializing_if` attribute is present). -/
def encodeIdField : Option (Fin 4294967296) → Value
  | none => .null
  | some n => .int n.val

/-- Serialize an `Option<String>` field (`None` is null). -/
def encodeOptString : Option String → Value
  | none => .null
  | some s => .str s

/-- Serialize a `Vec<String>`. -/
def encodeStringList (l : List String) : Value :=
  .arr (l.map Value.str)

/-- Serialize a `Vec<(String, String)>`: each tuple a two-element array. -/
def encodeStringPairList (l : List (String × String)) : Value :=
  .arr (l.map fun p => .arr [.str p.1, .str p.2])

/-- Serialize a `HashMap<String, String>` from its association list. -/
def encodeStringMap (l : List (String × String)) : Value :=
  .obj (l.map fun p => (p.1, .str p.2))

/-- Serialize a plain `Vec<u8>` (no `serde_bytes`): an array of
individually encoded integers. -/
def encodeByteSeq (bs : List (Fin 256)) : Value :=
  .arr (bs.map fun b => .int b.val)

/-- Serialize an `Option<Vec<u8>>` without `serde_bytes`. -/
def encodeOptByteSeq : Option (List (Fin 256)) → Value
  | none => .null
  | some bs => encodeByteSeq bs

/-- Serde-derived serializer for `RefServerMessageParams` (`body` is
`serde_bytes`, so a raw byte string on the wire). -/
def encodeRefServerMessageParams (p : RefServerMessageParams) : Value :=
  .obj [("i", .int p.i.val), ("body", .bytes p.body)]

/-- Serde-derived serializer for `ServerLog`. -/
def encodeServerLog (p : ServerLog) : Value :=
  .obj [("line", .str p.line), ("level", .int p.level.val)]

/-- Serde-derived serializer for `HttpRequestParams`. -/
def encodeHttpRequestParams (p : HttpRequestParams) : Value :=
  .obj [("url", .str p.url), ("method", .str p.method),
        ("req_id", .int p.req_id.val)]

/-- Serde-derived serializer for `VersionParams`. -/
def encodeVersionParams (p : VersionParams) : Value :=
  .obj [("version", .str p.version),
        ("protocol_version", .int p.protocol_version.val)]

/-- Serde-derived serializer for the flattened `ClientRequestMethod` fields:
the tag under `"method"`, the payload under `"params"` (every client-bound
variant is a newtype variant, so the content field is always present). -/
def encodeClientRequestMethodFields : ClientRequestMethod → List (String × Value)
  | .servermsg p => [("method", .str "servermsg"),
                     ("params", encodeRefServerMessageParams p)]
  | .serverlog p => [("method", .str "serverlog"), ("params", encodeServerLog p)]
  | .makehttpreq p => [("method", .str "makehttpreq"),
                       ("params", encodeHttpRequestParams p)]
  | .version p => [("method", .str "version"), ("params", encodeVersionParams p)]

/-- Serde-derived serializer for `ToClientRequest`: the optional id followed
by the flattened method/params fields. -/
def encodeToClientRequest (r : ToClientRequest) : Value :=
  .obj (("id", encodeIdField r.id) :: encodeClientRequestMethodFields r.params)

/-- Serde-derived serializer for `ResponseError`. -/
def encodeResponseError (e : ResponseError) : Value :=
  .obj [("code", .int e.code), ("message", .str e.message)]

/-- Serde-derived serializer for `ErrorResponse`. -/
def encodeErrorResponse (e : ErrorResponse) : Value :=
  .obj [("id", .int e.id.val), ("error", encodeResponseError e.error)]

/-- Serde-derived serializer for `SuccessResponse<T>`, given the
serializer for `T`. -/
def encodeSuccessResponse (encT : T → Value) (r : SuccessResponse T) : Value :=
  .obj [("id", .int r.id.val), ("result", encT r.result)]

/-- Serde-derived serializer for `EmptyResult`: an empty map. -/
def encodeEmptyResult (_ : EmptyResult) : Value :=
  .obj []

/-- Serde-derived serializer for `UpdateParams`. -/
def encodeUpdateParams (p : UpdateParams) : Value :=
  .obj [("do_update", .bool p.do_update)]

/-- Modelled from the spec: the client-side serializer for `ServeParams`
(only the `Deserialize` half is under `src/`; the encoding follows the
declared field layout and serde attributes, emitting every field in
declaration order with `None` as null). -/
def encodeServeParams (p : ServeParams) : Value :=
  .obj [("socket_id", .int p.socket_id.val),
        ("commit_id", encodeOptString p.commit_id),
        ("quality", encodeQuality p.quality),
        ("extensions", encodeStringList p.extensions),
        ("use_local_download", .bool p.use_local_download)]

/-- Modelled from the spec: the client-side serializer for `ForwardParams`. -/
def encodeForwardParams (p : ForwardParams) : Value :=
  .obj [("port", .int p.port.val)]

/-- Modelled from the spec: the client-side serializer for `UnforwardParams`. -/
def encodeUnforwardParams (p : UnforwardParams) : Value :=
  .obj [("port", .int p.port.val)]

/-- Modelled from the spec: the client-side serializer for
`ServerMessageParams` (`body` is `serde_bytes`, a raw byte string). -/
def encodeServerMessageParams (p : ServerMessageParams) : Value :=
  .obj [("i", .int p.i.val), ("body", .bytes p.body)]

/-- Modelled from the spec: the client-side serializer for
`CallServerHttpParams` (`body` has no `serde_bytes`, so an integer
sequence or null). -/
def encodeCallServerHttpParams (p : CallServerHttpParams) : Value :=
  .obj [("path", .str p.path), ("method", .str p.method),
        ("headers", encodeStringMap p.headers),
        ("body", encodeOptByteSeq p.body)]

/-- Modelled from the spec: the client-side serializer for
`HttpHeadersParams`. -/
def encodeHttpHeadersParams (p : HttpHeadersParams) : Value :=
  .obj [("status_code", .int p.status_code.val),
        ("headers", encodeStringPairList p.headers),
        ("req_id", .int p.req_id.val)]

/-- Modelled from the spec: the client-side serializer for `HttpBodyParams`
(`segment` is `serde_bytes`, a raw byte string). -/
def encodeHttpBodyParams (p : HttpBodyParams) : Value :=
  .obj [("segment", .bytes p.segment), ("complete", .bool p.complete),
        ("req_id", .int p.req_id.val)]

/-- Modelled from the spec: the client-side serializer for the flattened
`ServerRequestMethod` fields (adjacently tagged; the unit variant `prune`
omits the content field, per the spec's rule that zero-param methods omit
the parameter field). -/
def encodeServerRequestMethodFields : ServerRequestMethod → List (String × Value)
  | .serve p => [("method", .str "serve"), ("params", encodeServeParams p)]
  | .prune => [("method", .str "prune")]
  | .ping p => [("method", .str "ping"), ("params", encodeEmptyResult p)]
  | .forward p => [("method", .str "forward"), ("params", encodeForwardParams p)]
  | .unforward p => [("method", .str "unforward"),
                     ("params", encodeUnforwardParams p)]
  | .gethostname p => [("method", .str "gethostname"),
                       ("params", encodeEmptyResult p)]
  | .update p => [("method", .str "update"), ("params", encodeUpdateParams p)]
  | .servermsg p => [("method", .str "servermsg"),
                     ("params", encodeServerMessageParams p)]
  | .callserverhttp p => [("method", .str "callserverhttp"),
                          ("params", encodeCallServerHttpParams p)]
  | .httpheaders p => [("method", .str "httpheaders"),
                       ("params", encodeHttpHeadersParams p)]
  | .httpbody p => [("method", .str "httpbody"),
                    ("params", encodeHttpBodyParams p)]

/-- Modelled from the spec: the client-side serializer for
`ToServerRequest` envelopes. -/
def encodeToServerRequest (r : ToServerRequest) : Value :=
  .obj (("id", encodeIdField r.id) :: encodeServerRequestMethodFields r.params)

/-- Modelled from the spec: the client-side deserializer for
`RefServerMessageParams` (the client's decoder lives in the editor, outside
this repository; it inverts the serializer declared in the source). -/
def decodeRefServerMessageParams : Value → Except DecodeError RefServerMessageParams
  | .obj fs => do
    let i ← requiredField fs "i" decodeU16
    let body ← requiredField fs "body" decodeBytes
    .ok ⟨i, body⟩
  | _ => .error .malformedParams

/-- Modelled from the spec: the client-side deserializer for `ServerLog`. -/
def decodeServerLog : Value → Except DecodeError ServerLog
  | .obj fs => do
    let line ← requiredField fs "line" decodeString
    let level ← requiredField fs "level" decodeU8
    .ok ⟨line, level⟩
  | _ => .error .malformedParams

/-- Modelled from the spec: the client-side deserializer for
`HttpRequestParams`. -/
def decodeHttpRequestParams : Value → Except DecodeError HttpRequestParams
  | .obj fs => do
    let url ← requiredField fs "url" decodeString
    let method ← requiredField fs "method" decodeString
    let req_id ← requiredField fs "req_id" decodeU32
    .ok ⟨url, method, req_id⟩
  | _ => .error .malformedParams

/-- Modelled from the spec: the client-side deserializer for
`VersionParams`. -/
def decodeVersionParams : Value → Except DecodeError VersionParams
  | .obj fs => do
    let version ← requiredField fs "version" decodeString
    let protocol_version ← requiredField fs "protocol_version" decodeU32
    .ok ⟨version, protocol_version⟩
  | _ => .error .malformedParams

/-- Adjacently tagged content for a client-bound newtype variant. -/
def requireClientContent (pv : Option Value) (d : Value → Except DecodeError α)
    (k : α → ClientRequestMethod) : Except DecodeError ClientRequestMethod :=
  match pv with
  | some v => (d v).map k
  | none => .error .malformedParams

/-- Modelled from the spec: dispatch on the client-bound method tag (every
client-bound variant is a newtype variant, so content is always required). -/
def dispatchClientMethod (t : String) (pv : Option Value) :
    Except DecodeError ClientRequestMethod :=
  if t = "servermsg" then requireClientContent pv decodeRefServerMessageParams .servermsg
  else if t = "serverlog" then requireClientContent pv decodeServerLog .serverlog
  else if t = "makehttpreq" then
    requireClientContent pv decodeHttpRequestParams .makehttpreq
  else if t = "version" then requireClientContent pv decodeVersionParams .version
  else .error .unknownMethod

/-- Modelled from the spec: the client-side deserializer for the flattened
`ClientRequestMethod` fields. -/
def decodeClientRequestMethodFields (fs : List (String × Value)) :
    Except DecodeError ClientRequestMethod :=
  match lookupField fs "method" with
  | some (.str t) => dispatchClientMethod t (lookupField fs "params")
  | some _ => .error .truncated
  | none => .error .truncated

/-- Modelled from the spec: the client-side deserializer for
`ToClientRequest` envelopes. -/
def decodeToClientRequest : Value → Except DecodeError ToClientRequest
  | .obj fs => do
    let i ← decodeIdField fs
    let m ← decodeClientRequestMethodFields fs
    .ok ⟨i, m⟩
  | _ => .error .truncated

/-- Serde-derived deserializer for `ResponseError`. -/
def decodeResponseError : Value → Except DecodeError ResponseError
  | .obj fs => do
    let code ← requiredField fs "code" decodeI32
    let message ← requiredField fs "message" decodeString
    .ok ⟨code, message⟩
  | _ => .error .malformedParams

/-- Serde-derived deserializer for `ErrorResponse`: the `id` field is
mandatory (a `u32`, not an `Option`), so its absence fails the decode. -/
def decodeErrorResponse : Value → Except DecodeError ErrorResponse
  | .obj fs => do
    let i ← (match lookupField fs "id" with
      | some v => decodeU32 v
      | none => .error .truncated)
    let e ← requiredField fs "error" decodeResponseError
    .ok ⟨i, e⟩
  | _ => .error .truncated

/-- Serde-derived deserializer for `SuccessResponse<T>`, given the
deserializer for `T`: the `id` field is mandatory, so its absence fails. -/
def decodeSuccessResponse (decT : Value → Except DecodeError T) :
    Value → Except DecodeError (SuccessResponse T)
  | .obj fs => do
    let i ← (match lookupField fs "id" with
      | some v => decodeU32 v
      | none => .error .truncated)
    let r ← requiredField fs "result" decT
    .ok ⟨i, r⟩
  | _ => .error .truncated

/-- A `ToServerRequest` is representable in the Rust data model when its
`callserverhttp` header map, embedded here as an association list, has the
distinct keys a `HashMap<String, String>` guarantees. -/
def RepresentableServerRequest (r : ToServerRequest) : Prop :=
  match r.params with
  | .callserverhttp p => (p.headers.map Prod.fst).Nodup
  | _ => True

instance (r : ToServerRequest) : Decidable (RepresentableServerRequest r) := by
  unfold RepresentableServerRequest
  match r.params with
  | .callserverhttp p => exact List.nodupDecidable _
  | .serve _ | .prune | .ping _ | .forward _ | .unforward _ | .gethostname _
  | .update _ | .servermsg _ | .httpheaders _ | .httpbody _ => exact inferInstance

/-- A decoder whose every failure is `malformedParams`: the property the
params decoders share, so that a recognized tag with a mismatched payload
always surfaces as `MalformedParams`. -/
def MalformedOnly (d : Value → Except DecodeError α) : Prop :=
  ∀ v e, d v = .error e → e = .malformedParams

@[simp]
theorem ok_bind (a : α) (f : α → Except DecodeError β) :
    (Except.ok a >>= f) = f a := rfl

@[simp]
theorem error_bind (e : DecodeError) (f : α → Except DecodeError β) :
    (Except.error e >>= f : Except DecodeError β) = .error e := rfl

@[simp]
theorem map_ok (f : α → β) (a : α) :
    (Except.map f (Except.ok a) : Except DecodeError β) = .ok (f a) := rfl

theorem decodeU8_int (n : Fin 256) : decodeU8 (.int n.val) = .ok n := by
  have h := n.isLt
  simp only [decodeU8]
  split
  next => exact congrArg Except.ok (Fin.ext (by simp))
  next h2 => exact absurd ⟨by omega, by omega⟩ h2

theorem decodeU16_int (n : Fin 65536) : decodeU16 (.int n.val) = .ok n := by
  have h := n.isLt
  simp only [decodeU16]
  split
  next => exact congrArg Except.ok (Fin.ext (by simp))
  next h2 => exact absurd ⟨by omega, by omega⟩ h2

theorem decodeU32_int (n : Fin 4294967296) : decodeU32 (.int n.val) = .ok n := by
  have h := n.isLt
  simp only [decodeU32]
  split
  next => exact congrArg Except.ok (Fin.ext (by simp))
  next h2 => exact absurd ⟨by omega, by omega⟩ h2

theorem decodeI32_int (n : Int) (h1 : -2147483648 ≤ n) (h2 : n < 2147483648) :
    decodeI32 (.int n) = .ok n := by
  simp only [decodeI32]
  rw [if_pos (by omega)]

theorem decodeQuality_encode (q : Quality) :
    decodeQuality (encodeQuality q) = .ok q := by
  cases q <;> rfl

theorem decodeStringListAux_map (l : List String) :
    decodeStringListAux (l.map Value.str) = .ok l := by
  induction l with
  | nil => rfl
  | cons s rest ih => simp [decodeStringListAux, decodeString, ih]

theorem decodeStringList_encode (l : List String) :
    decodeStringList (encodeStringList l) = .ok l := by
  simp [decodeStringList, encodeStringList, decodeStringListAux_map]

theorem decodeByteSeqList_map (bs : List (Fin 256)) :
    decodeByteSeqList (bs.map fun b => .int b.val) = .ok bs := by
  induction bs with
  | nil => rfl
  | cons b rest ih => simp [decodeByteSeqList, decodeU8_int, ih]

theorem decodeByteSeq_encode (bs : List (Fin 256)) :
    decodeByteSeq (encodeByteSeq bs) = .ok bs := by
  simp [decodeByteSeq, encodeByteSeq, decodeByteSeqList_map]

theorem decodeStringPairListAux_map (l : List (String × String)) :
    decodeStringPairListAux (l.map fun p => Value.arr [.str p.1, .str p.2]) = .ok l := by
  induction l with
  | nil => rfl
  | cons p rest ih => simp [decodeStringPairListAux, decodeStringPair, decodeString, ih]

theorem decodeStringPairList_encode (l : List (String × String)) :
    decodeStringPairList (encodeStringPairList l) = .ok l := by
  simp [decodeStringPairList, encodeStringPairList, decodeStringPairListAux_map]

theorem decodeStringMapAux_map (l : List (String × String)) :
    decodeStringMapAux (l.map fun p => (p.1, Value.str p.2)) = .ok l := by
  induction l with
  | nil => rfl
  | cons p rest ih => simp [decodeStringMapAux, decodeString, ih]

theorem decodeStringMap_encode (l : List (String × String)) :
    decodeStringMap (encodeStringMap l) = .ok l := by
  simp [decodeStringMap, encodeStringMap, decodeStringMapAux_map]

theorem decodeOptString_encode (o : Option String) :
    optionalField [("k", encodeOptString o)] "k" decodeString = .ok o := by
  cases o <;> rfl

theorem decodeForwardParams_encode (p : ForwardParams) :
    decodeForwardParams (encodeForwardParams p) = .ok p := by
  simp [decodeForwardParams, encodeForwardParams, requiredField, lookupField,
    decodeU16_int]

theorem decodeUnforwardParams_encode (p : UnforwardParams) :
    decodeUnforwardParams (encodeUnforwardParams p) = .ok p := by
  simp [decodeUnforwardParams, encodeUnforwardParams, requiredField, lookupField,
    decodeU16_int]

theorem decodeEmptyResult_encode (p : EmptyResult) :
    decodeEmptyResult (encodeEmptyResult p) = .ok p := rfl

theorem decodeUpdateParams_encode (p : UpdateParams) :
    decodeUpdateParams (encodeUpdateParams p) = .ok p := by
  simp [decodeUpdateParams, encodeUpdateParams, requiredField, lookupField,
    decodeBool]

theorem decodeServeParams_encode (p : ServeParams) :
    decodeServeParams (encodeServeParams p) = .ok p := by
  cases p with
  | mk socket_id commit_id quality extensions use_local_download =>
    cases commit_id <;>
      simp [decodeServeParams, encodeServeParams, requiredField, optionalField,
        defaultField, lookupField, decodeU16_int, decodeQuality_encode,
        decodeStringList_encode, decodeBool, decodeString, encodeOptString]

theorem decodeServerMessageParams_encode (p : ServerMessageParams) :
    decodeServerMessageParams (encodeServerMessageParams p) = .ok p := by
  simp [decodeServerMessageParams, encodeServerMessageParams, requiredField,
    lookupField, decodeU16_int, decodeBytes]

theorem decodeCallServerHttpParams_encode (p : CallServerHttpParams) :
    decodeCallServerHttpParams (encodeCallServerHttpParams p) = .ok p := by
  cases p with
  | mk path method headers body =>
    cases body <;>
      simp [decodeCallServerHttpParams, encodeCallServerHttpParams, requiredField,
        optionalField, lookupField, decodeString, decodeStringMap_encode,
        encodeOptByteSeq, encodeByteSeq, decodeByteSeq, decodeByteSeqList_map]

theorem decodeHttpHeadersParams_encode (p : HttpHeadersParams) :
    decodeHttpHeadersParams (encodeHttpHeadersParams p) = .ok p := by
  simp [decodeHttpHeadersParams, encodeHttpHeadersParams, requiredField,
    lookupField, decodeU16_int, decodeU32_int, decodeStringPairList_encode]

theorem decodeHttpBodyParams_encode (p : HttpBodyParams) :
    decodeHttpBodyParams (encodeHttpBodyParams p) = .ok p := by
  simp [decodeHttpBodyParams, encodeHttpBodyParams, requiredField, lookupField,
    decodeBytes, decodeBool, decodeU32_int]

theorem decodeRefServerMessageParams_encode (p : RefServerMessageParams) :
    decodeRefServerMessageParams (encodeRefServerMessageParams p) = .ok p := by
  simp [decodeRefServerMessageParams, encodeRefServerMessageParams, requiredField,
    lookupField, decodeU16_int, decodeBytes]

theorem decodeServerLog_encode (p : ServerLog) :
    decodeServerLog (encodeServerLog p) = .ok p := by
  simp [decodeServerLog, encodeServerLog, requiredField, lookupField,
    decodeString, decodeU8_int]

theorem decodeHttpRequestParams_encode (p : HttpRequestParams) :
    decodeHttpRequestParams (encodeHttpRequestParams p) = .ok p := by
  simp [decodeHttpRequestParams, encodeHttpRequestParams, requiredField,
    lookupField, decodeString, decodeU32_int]

theorem decodeVersionParams_encode (p : VersionParams) :
    decodeVersionParams (encodeVersionParams p) = .ok p := by
  simp [decodeVersionParams, encodeVersionParams, requiredField, lookupField,
    decodeString, decodeU32_int]

theorem decodeResponseError_encode (e : ResponseError)
    (h1 : -2147483648 ≤ e.code) (h2 : e.code < 2147483648) :
    decodeResponseError (encodeResponseError e) = .ok e := by
  simp [decodeResponseError, encodeResponseError, requiredField, lookupField,
    decodeI32_int e.code h1 h2, decodeString]

theorem decodeErrorResponse_encode (e : ErrorResponse)
    (h1 : -2147483648 ≤ e.error.code) (h2 : e.error.code < 2147483648) :
    decodeErrorResponse (encodeErrorResponse e) = .ok e := by
  simp [decodeErrorResponse, encodeErrorResponse, requiredField, lookupField,
    decodeU32_int, decodeResponseError_encode e.error h1 h2]

theorem decodeIdField_cons (i : Option (Fin 4294967296)) (rest : List (String × Value)) :
    decodeIdField (("id", encodeIdField i) :: rest) = .ok i := by
  cases i <;> simp [decodeIdField, lookupField, encodeIdField, decodeU32_int]

theorem decodeServerRequestMethodFields_encode (m : ServerRequestMethod) (idv : Value) :
    decodeServerRequestMethodFields (("id", idv) :: encodeServerRequestMethodFields m) =
      .ok m := by
  cases m <;>
    simp [encodeServerRequestMethodFields, decodeServerRequestMethodFields,
      lookupField, dispatchServerMethod, requireContent,
      decodeServeParams_encode, decodeEmptyResult_encode, decodeForwardParams_encode,
      decodeUnforwardParams_encode, decodeUpdateParams_encode,
      decodeServerMessageParams_encode, decodeCallServerHttpParams_encode,
      decodeHttpHeadersParams_encode, decodeHttpBodyParams_encode]

theorem decodeClientRequestMethodFields_encode (m : ClientRequestMethod) (idv : Value) :
    decodeClientRequestMethodFields (("id", idv) :: encodeClientRequestMethodFields m) =
      .ok m := by
  cases m <;>
    simp [encodeClientRequestMethodFields, decodeClientRequestMethodFields,
      lookupField, dispatchClientMethod, requireClientContent,
      decodeRefServerMessageParams_encode, decodeServerLog_encode,
      decodeHttpRequestParams_encode, decodeVersionParams_encode]

theorem roundtrip_toServerRequest (r : ToServerRequest) :
    decodeToServerRequest (encodeToServerRequest r) = .ok r := by
  cases r with
  | mk i m =>
    simp [encodeToServerRequest, decodeToServerRequest, decodeIdField_cons,
      decodeServerRequestMethodFields_encode]

theorem roundtrip_toClientRequest (r : ToClientRequest) :
    decodeToClientRequest (encodeToClientRequest r) = .ok r := by
  cases r with
  | mk i m =>
    simp [encodeToClientRequest, decodeToClientRequest, decodeIdField_cons,
      decodeClientRequestMethodFields_encode]

@[simp]
theorem map_error (f : α → β) (e : DecodeError) :
    (Except.map f (Except.error e) : Except DecodeError β) = .error e := rfl

theorem bind_eq_error {x : Except DecodeError α} {f : α → Except DecodeError β}
    {e : DecodeError} (h : (x >>= f) = .error e)
    (hx : ∀ e', x = .error e' → e' = .malformedParams)
    (hf : ∀ a, f a = .error e → e = .malformedParams) :
    e = .malformedParams := by
  cases x with
  | ok a => rw [ok_bind] at h; exact hf a h
  | error e' =>
    rw [error_bind] at h
    injection h with h
    exact h ▸ hx e' rfl

theorem bind_eq_ok {x : Except DecodeError α} {f : α → Except DecodeError β}
    {b : β} : (x >>= f) = .ok b ↔ ∃ a, x = .ok a ∧ f a = .ok b := by
  cases x <;> simp

theorem decodeU8_malformedOnly : MalformedOnly decodeU8 := by
  intro v e h
  cases v <;> simp only [decodeU8] at h <;> (repeat' split at h) <;>
    first
      | (injection h with h; exact h.symm)
      | exact Except.noConfusion h

theorem decodeU16_malformedOnly : MalformedOnly decodeU16 := by
  intro v e h
  cases v <;> simp only [decodeU16] at h <;> (repeat' split at h) <;>
    first
      | (injection h with h; exact h.symm)
      | exact Except.noConfusion h

theorem decodeU32_malformedOnly : MalformedOnly decodeU32 := by
  intro v e h
  cases v <;> simp only [decodeU32] at h <;> (repeat' split at h) <;>
    first
      | (injection h with h; exact h.symm)
      | exact Except.noConfusion h

theorem decodeI32_malformedOnly : MalformedOnly decodeI32 := by
  intro v e h
  cases v <;> simp only [decodeI32] at h <;> (repeat' split at h) <;>
    first
      | (injection h with h; exact h.symm)
      | exact Except.noConfusion h

theorem decodeBool_malformedOnly : MalformedOnly decodeBool := by
  intro v e h
  cases v <;> simp only [decodeBool] at h <;>
    first
      | (injection h with h; exact h.symm)
      | exact Except.noConfusion h

theorem decodeString_malformedOnly : MalformedOnly decodeString := by
  intro v e h
  cases v <;> simp only [decodeString] at h <;>
    first
      | (injection h with h; exact h.symm)
      | exact Except.noConfusion h

theorem decodeBytes_malformedOnly : MalformedOnly decodeBytes := by
  intro v e h
  cases v <;> simp only [decodeBytes] at h <;>
    first
      | (injection h with h; exact h.symm)
      | exact Except.noConfusion h

theorem decodeQuality_malformedOnly : MalformedOnly decodeQuality := by
  intro v e h
  cases v <;> simp only [decodeQuality] at h <;> (repeat' split at h) <;>
    first
      | (injection h with h; exact h.symm)
      | exact Except.noConfusion h

theorem map_some_error {d : Value → Except DecodeError α}
    (hd : MalformedOnly d) (v : Value) (e : DecodeError)
    (h : Except.map some (d v) = .error e) : e = .malformedParams := by
  cases hd2 : d v with
  | ok a => rw [hd2] at h; exact Except.noConfusion h
  | error e' =>
    rw [hd2, map_error] at h
    injection h with h
    exact h ▸ hd v e' hd2

theorem decodeStringListAux_error (l : List Value) :
    ∀ e, decodeStringListAux l = .error e → e = .malformedParams := by
  induction l with
  | nil => exact fun e h => Except.noConfusion h
  | cons v rest ih =>
    intro e h
    simp only [decodeStringListAux] at h
    exact bind_eq_error h (decodeString_malformedOnly v)
      (fun s h2 => bind_eq_error h2 ih (fun tail h3 => Except.noConfusion h3))

theorem decodeStringList_malformedOnly : MalformedOnly decodeStringList := by
  intro v e h
  cases v <;> simp only [decodeStringList] at h <;>
    first
      | (injection h with h; exact h.symm)
      | exact decodeStringListAux_error _ _ h

theorem decodeByteSeqList_error (l : List Value) :
    ∀ e, decodeByteSeqList l = .error e → e = .malformedParams := by
  induction l with
  | nil => exact fun e h => Except.noConfusion h
  | cons v rest ih =>
    intro e h
    simp only [decodeByteSeqList] at h
    exact bind_eq_error h (decodeU8_malformedOnly v)
      (fun b h2 => bind_eq_error h2 ih (fun tail h3 => Except.noConfusion h3))

theorem decodeByteSeq_malformedOnly : MalformedOnly decodeByteSeq := by
  intro v e h
  cases v <;> simp only [decodeByteSeq] at h <;>
    first
      | (injection h with h; exact h.symm)
      | exact decodeByteSeqList_error _ _ h

theorem decodeStringPair_malformedOnly : MalformedOnly decodeStringPair := by
  intro v e h
  match v with
  | .arr [a, b] =>
    simp only [decodeStringPair] at h
    exact bind_eq_error h (decodeString_malformedOnly a)
      (fun x h2 => bind_eq_error h2 (decodeString_malformedOnly b)
        (fun y h3 => Except.noConfusion h3))
  | .null | .bool _ | .int _ | .str _ | .bytes _ | .obj _ | .arr []
  | .arr [_] | .arr (_ :: _ :: _ :: _) =>
    injection h with h
    exact h.symm

theorem decodeStringPairListAux_error (l : List Value) :
    ∀ e, decodeStringPairListAux l = .error e → e = .malformedParams := by
  induction l with
  | nil => exact fun e h => Except.noConfusion h
  | cons v rest ih =>
    intro e h
    simp only [decodeStringPairListAux] at h
    exact bind_eq_error h (decodeStringPair_malformedOnly v)
      (fun p h2 => bind_eq_error h2 ih (fun tail h3 => Except.noConfusion h3))

theorem decodeStringPairList_malformedOnly : MalformedOnly decodeStringPairList := by
  intro v e h
  cases v <;> simp only [decodeStringPairList] at h <;>
    first
      | (injection h with h; exact h.symm)
      | exact decodeStringPairListAux_error _ _ h

theorem decodeStringMapAux_error (l : List (String × Value)) :
    ∀ e, decodeStringMapAux l = .error e → e = .malformedParams := by
  induction l with
  | nil => exact fun e h => Except.noConfusion h
  | cons kv rest ih =>
    intro e h
    simp only [decodeStringMapAux] at h
    exact bind_eq_error h (decodeString_malformedOnly kv.2)
      (fun s h2 => bind_eq_error h2 ih (fun tail h3 => Except.noConfusion h3))

theorem decodeStringMap_malformedOnly : MalformedOnly decodeStringMap := by
  intro v e h
  cases v <;> simp only [decodeStringMap] at h <;>
    first
      | (injection h with h; exact h.symm)
      | exact decodeStringMapAux_error _ _ h

theorem requiredField_error {d : Value → Except DecodeError α}
    (hd : MalformedOnly d) (fs : List (String × Value)) (key : String)
    (e : DecodeError) (h : requiredField fs key d = .error e) :
    e = .malformedParams := by
  revert h
  unfold requiredField
  cases hv : lookupField fs key with
  | none => intro h; injection h with h; exact h.symm
  | some v => intro h; exact hd v e h

theorem optionalField_error {d : Value → Except DecodeError α}
    (hd : MalformedOnly d) (fs : List (String × Value)) (key : String)
    (e : DecodeError) (h : optionalField fs key d = .error e) :
    e = .malformedParams := by
  revert h
  unfold optionalField
  cases hv : lookupField fs key with
  | none => exact fun h => Except.noConfusion h
  | some v =>
    cases v <;>
      first
        | exact fun h => Except.noConfusion h
        | exact fun h => map_some_error hd _ e h

theorem defaultField_error {d : Value → Except DecodeError α}
    (hd : MalformedOnly d) (fs : List (String × Value)) (key : String)
    (dflt : α) (e : DecodeError) (h : defaultField fs key d dflt = .error e) :
    e = .malformedParams := by
  revert h
  unfold defaultField
  cases hv : lookupField fs key with
  | none => exact fun h => Except.noConfusion h
  | some v => exact fun h => hd v e h

theorem decodeHttpBodyParams_malformedOnly : MalformedOnly decodeHttpBodyParams := by
  intro v e h
  match v, h with
  | .obj fs, h =>
    simp only [decodeHttpBodyParams] at h
    exact bind_eq_error h
      (fun e' h' => requiredField_error decodeBytes_malformedOnly fs "segment" e' h')
      (fun seg h2 => bind_eq_error h2
        (fun e' h' => requiredField_error decodeBool_malformedOnly fs "complete" e' h')
        (fun c h3 => bind_eq_error h3
          (fun e' h' => requiredField_error decodeU32_malformedOnly fs "req_id" e' h')
          (fun r h4 => Except.noConfusion h4)))
  | .null, h | .bool _, h | .int _, h | .str _, h | .bytes _, h | .arr _, h =>
    injection h with h; exact h.symm

theorem decodeHttpHeadersParams_malformedOnly : MalformedOnly decodeHttpHeadersParams := by
  intro v e h
  match v, h with
  | .obj fs, h =>
    simp only [decodeHttpHeadersParams] at h
    exact bind_eq_error h
      (fun e' h' => requiredField_error decodeU16_malformedOnly fs "status_code" e' h')
      (fun sc h2 => bind_eq_error h2
        (fun e' h' => requiredField_error decodeStringPairList_malformedOnly fs "headers" e' h')
        (fun hs h3 => bind_eq_error h3
          (fun e' h' => requiredField_error decodeU32_malformedOnly fs "req_id" e' h')
          (fun r h4 => Except.noConfusion h4)))
  | .null, h | .bool _, h | .int _, h | .str _, h | .bytes _, h | .arr _, h =>
    injection h with h; exact h.symm

theorem decodeForwardParams_malformedOnly : MalformedOnly decodeForwardParams := by
  intro v e h
  match v, h with
  | .obj fs, h =>
    simp only [decodeForwardParams] at h
    exact bind_eq_error h
      (fun e' h' => requiredField_error decodeU16_malformedOnly fs "port" e' h')
      (fun p h2 => Except.noConfusion h2)
  | .null, h | .bool _, h | .int _, h | .str _, h | .bytes _, h | .arr _, h =>
    injection h with h; exact h.symm

theorem decodeUnforwardParams_malformedOnly : MalformedOnly decodeUnforwardParams := by
  intro v e h
  match v, h with
  | .obj fs, h =>
    simp only [decodeUnforwardParams] at h
    exact bind_eq_error h
      (fun e' h' => requiredField_error decodeU16_malformedOnly fs "port" e' h')
      (fun p h2 => Except.noConfusion h2)
  | .null, h | .bool _, h | .int _, h | .str _, h | .bytes _, h | .arr _, h =>
    injection h with h; exact h.symm

theorem decodeServeParams_malformedOnly : MalformedOnly decodeServeParams := by
  intro v e h
  match v, h with
  | .obj fs, h =>
    simp only [decodeServeParams] at h
    exact bind_eq_error h
      (fun e' h' => requiredField_error decodeU16_malformedOnly fs "socket_id" e' h')
      (fun sid h2 => bind_eq_error h2
        (fun e' h' => optionalField_error decodeString_malformedOnly fs "commit_id" e' h')
        (fun cid h3 => bind_eq_error h3
          (fun e' h' => requiredField_error decodeQuality_malformedOnly fs "quality" e' h')
          (fun q h4 => bind_eq_error h4
            (fun e' h' => requiredField_error decodeStringList_malformedOnly fs "extensions" e' h')
            (fun ext h5 => bind_eq_error h5
              (fun e' h' => defaultField_error decodeBool_malformedOnly fs
                "use_local_download" false e' h')
              (fun uld h6 => Except.noConfusion h6)))))
  | .null, h | .bool _, h | .int _, h | .str _, h | .bytes _, h | .arr _, h =>
    injection h with h; exact h.symm

theorem decodeEmptyResult_malformedOnly : MalformedOnly decodeEmptyResult := by
  intro v e h
  cases v <;> simp only [decodeEmptyResult] at h <;>
    first
      | (injection h with h; exact h.symm)
      | exact Except.noConfusion h

theorem decodeUpdateParams_malformedOnly : MalformedOnly decodeUpdateParams := by
  intro v e h
  match v, h with
  | .obj fs, h =>
    simp only [decodeUpdateParams] at h
    exact bind_eq_error h
      (fun e' h' => requiredField_error decodeBool_malformedOnly fs "do_update" e' h')
      (fun b h2 => Except.noConfusion h2)
  | .null, h | .bool _, h | .int _, h | .str _, h | .bytes _, h | .arr _, h =>
    injection h with h; exact h.symm

theorem decodeServerMessageParams_malformedOnly :
    MalformedOnly decodeServerMessageParams := by
  intro v e h
  match v, h with
  | .obj fs, h =>
    simp only [decodeServerMessageParams] at h
    exact bind_eq_error h
      (fun e' h' => requiredField_error decodeU16_malformedOnly fs "i" e' h')
      (fun i h2 => bind_eq_error h2
        (fun e' h' => requiredField_error decodeBytes_malformedOnly fs "body" e' h')
        (fun b h3 => Except.noConfusion h3))
  | .null, h | .bool _, h | .int _, h | .str _, h | .bytes _, h | .arr _, h =>
    injection h with h; exact h.symm

theorem decodeCallServerHttpParams_malformedOnly :
    MalformedOnly decodeCallServerHttpParams := by
  intro v e h
  match v, h with
  | .obj fs, h =>
    simp only [decodeCallServerHttpParams] at h
    exact bind_eq_error h
      (fun e' h' => requiredField_error decodeString_malformedOnly fs "path" e' h')
      (fun p h2 => bind_eq_error h2
        (fun e' h' => requiredField_error decodeString_malformedOnly fs "method" e' h')
        (fun m h3 => bind_eq_error h3
          (fun e' h' => requiredField_error decodeStringMap_malformedOnly fs "headers" e' h')
          (fun hs h4 => bind_eq_error h4
            (fun e' h' => optionalField_error decodeByteSeq_malformedOnly fs "body" e' h')
            (fun b h5 => Except.noConfusion h5))))
  | .null, h | .bool _, h | .int _, h | .str _, h | .bytes _, h | .arr _, h =>
    injection h with h; exact h.symm

theorem requireContent_error {d : Value → Except DecodeError α}
    {k : α → ServerRequestMethod} (hd : MalformedOnly d) (pv : Option Value)
    (e : DecodeError) (h : requireContent pv d k = .error e) :
    e = .malformedParams := by
  cases pv with
  | none => simp only [requireContent] at h; injection h with h; exact h.symm
  | some v =>
    simp only [requireContent] at h
    cases hd2 : d v with
    | ok a => rw [hd2, map_ok] at h; exact Except.noConfusion h
    | error e' =>
      rw [hd2, map_error] at h
      injection h with h
      exact h ▸ hd v e' hd2

theorem dispatchServerMethod_not_known (t : String) (pv : Option Value)
    (h : t ∉ knownServerMethods) :
    dispatchServerMethod t pv = .error .unknownMethod := by
  simp only [knownServerMethods, List.mem_cons, List.not_mem_nil, or_false,
    not_or] at h
  obtain ⟨h1, h2, h3, h4, h5, h6, h7, h8, h9, h10, h11⟩ := h
  unfold dispatchServerMethod
  rw [if_neg h1, if_neg h2, if_neg h3, if_neg h4, if_neg h5, if_neg h6,
    if_neg h7, if_neg h8, if_neg h9, if_neg h10, if_neg h11]

theorem dispatchServerMethod_known_error (t : String) (pv : Option Value)
    (e : DecodeError) (hk : t ∈ knownServerMethods)
    (h : dispatchServerMethod t pv = .error e) : e = .malformedParams := by
  unfold dispatchServerMethod at h
  simp only [knownServerMethods, List.mem_cons, List.not_mem_nil, or_false] at hk
  rcases hk with rfl | rfl | rfl | rfl | rfl | rfl | rfl | rfl | rfl | rfl | rfl
  · rw [if_pos rfl] at h
    exact requireContent_error decodeServeParams_malformedOnly pv e h
  · rw [if_neg (by decide), if_pos rfl] at h
    revert h
    cases pv with
    | none => exact fun h => Except.noConfusion h
    | some v =>
      cases v <;>
        first
          | exact fun h => Except.noConfusion h
          | (intro h; injection h with h; exact h.symm)
  · rw [if_neg (by decide), if_neg (by decide), if_pos rfl] at h
    exact requireContent_error decodeEmptyResult_malformedOnly pv e h
  · rw [if_neg (by decide), if_neg (by decide), if_neg (by decide),
      if_pos rfl] at h
    exact requireContent_error decodeForwardParams_malformedOnly pv e h
  · rw [if_neg (by decide), if_neg (by decide), if_neg (by decide),
      if_neg (by decide), if_pos rfl] at h
    exact requireContent_error decodeUnforwardParams_malformedOnly pv e h
  · rw [if_neg (by decide), if_neg (by decide), if_neg (by decide),
      if_neg (by decide), if_neg (by decide), if_pos rfl] at h
    exact requireContent_error decodeEmptyResult_malformedOnly pv e h
  · rw [if_neg (by decide), if_neg (by decide), if_neg (by decide),
      if_neg (by decide), if_neg (by decide), if_neg (by decide),
      if_pos rfl] at h
    exact requireContent_error decodeUpdateParams_malformedOnly pv e h
  · rw [if_neg (by decide), if_neg (by decide), if_neg (by decide),
      if_neg (by decide), if_neg (by decide), if_neg (by decide),
      if_neg (by decide), if_pos rfl] at h
    exact requireContent_error decodeServerMessageParams_malformedOnly pv e h
  · rw [if_neg (by decide), if_neg (by decide), if_neg (by decide),
      if_neg (by decide), if_neg (by decide), if_neg (by decide),
      if_neg (by decide), if_neg (by decide), if_pos rfl] at h
    exact requireContent_error decodeCallServerHttpParams_malformedOnly pv e h
  · rw [if_neg (by decide), if_neg (by decide), if_neg (by decide),
      if_neg (by decide), if_neg (by decide), if_neg (by decide),
      if_neg (by decide), if_neg (by decide), if_neg (by decide),
      if_pos rfl] at h
    exact requireContent_error decodeHttpHeadersParams_malformedOnly pv e h
  · rw [if_neg (by decide), if_neg (by decide), if_neg (by decide),
      if_neg (by decide), if_neg (by decide), if_neg (by decide),
      if_neg (by decide), if_neg (by decide), if_neg (by decide),
      if_neg (by decide), if_pos rfl] at h
    exact requireContent_error decodeHttpBodyParams_malformedOnly pv e h

theorem lookupField_append_cons (fs1 fs2 : List (String × Value)) (k : String)
    (v : Value) (f : String) (hk : k ≠ f) :
    lookupField (fs1 ++ (k, v) :: fs2) f = lookupField (fs1 ++ fs2) f := by
  induction fs1 with
  | nil => simp [lookupField, hk]
  | cons p rest ih =>
    cases p with
    | mk k1 v1 =>
      by_cases hk1 : k1 = f <;> simp [lookupField, hk1, ih]

/-- C1: for every valid message — a method tag paired with a well-typed
params payload from the method catalogue, embedded as a `ToServerRequest`
or `ToClientRequest` value (server-bound `callserverhttp` messages are
restricted to header maps with the distinct keys a `HashMap` guarantees) —
decoding the encoding of that message yields the original message
unchanged, including when binary body/segment fields are zero-length or
arbitrarily large. -/
theorem C1_decode_encode_roundtrip :
    (∀ r : ToServerRequest, RepresentableServerRequest r →
      decodeToServerRequest (encodeToServerRequest r) = .ok r) ∧
    ∀ c : ToClientRequest,
      decodeToClientRequest (encodeToClientRequest c) = .ok c :=
  ⟨fun r _ => roundtrip_toServerRequest r, roundtrip_toClientRequest⟩

/-- Witness for C1 at a concrete `callserverhttp` message with a
zero-length binary body. -/
theorem C1_decode_encode_roundtrip_witness :
    decodeToServerRequest (encodeToServerRequest
      ⟨some 7, .callserverhttp ⟨"/status", "GET", [("accept", "text/plain")], some []⟩⟩) =
      .ok ⟨some 7, .callserverhttp ⟨"/status", "GET", [("accept", "text/plain")], some []⟩⟩ :=
  C1_decode_encode_roundtrip.1 _ (by decide)

/-- C2: on an envelope whose id field is well-formed and whose method tag
is present, an unrecognized tag makes the decode fail with
`unknownMethod`; a recognized tag whose params payload fails that tag's
dispatch makes it fail with `malformedParams` (dispatch failures are never
any other error); and a recognized tag whose params dispatch succeeds
decodes to exactly the dispatched value — nothing is silently defaulted
(the decoder is a total Lean function, so it cannot panic). -/
theorem C2_unknown_or_malformed (fs : List (String × Value)) (t : String)
    (i : Option (Fin 4294967296)) (hid : decodeIdField fs = .ok i)
    (ht : lookupField fs "method" = some (.str t)) :
    (t ∉ knownServerMethods →
      decodeToServerRequest (.obj fs) = .error .unknownMethod) ∧
    (t ∈ knownServerMethods →
      (∀ e, dispatchServerMethod t (lookupField fs "params") = .error e →
        e = .malformedParams ∧
        decodeToServerRequest (.obj fs) = .error .malformedParams) ∧
      ∀ m, dispatchServerMethod t (lookupField fs "params") = .ok m →
        decodeToServerRequest (.obj fs) = .ok ⟨i, m⟩) := by
  have hbase : decodeToServerRequest (.obj fs) =
      dispatchServerMethod t (lookupField fs "params") >>= fun m =>
        .ok ⟨i, m⟩ := by
    simp [decodeToServerRequest, hid, decodeServerRequestMethodFields, ht]
  refine ⟨fun hu => ?_, fun hk => ⟨fun e he => ?_, fun m hm => ?_⟩⟩
  · rw [hbase, dispatchServerMethod_not_known t _ hu, error_bind]
  · have hme := dispatchServerMethod_known_error t _ e hk he
    exact ⟨hme, by rw [hbase, he, error_bind, hme]⟩
  · rw [hbase, hm, ok_bind]

/-- Witness for C2: a concrete envelope with an unrecognized method tag
fails with `unknownMethod`. -/
theorem C2_unknown_or_malformed_witness :
    decodeToServerRequest (.obj [("method", .str "bogus")]) =
      .error .unknownMethod :=
  (C2_unknown_or_malformed [("method", .str "bogus")] "bogus" none rfl rfl).1
    (by decide)

/-- C3: both response shapes carry a mandatory `u32` id — decoding either a
success or an error response from a map with no id field fails — while a
request envelope's id is optional: a request map decodes with the id
absent (giving `none`) or present (giving that id). -/
theorem C3_response_id_mandatory_request_id_optional :
    (∀ (T : Type) (dT : Value → Except DecodeError T)
        (fs : List (String × Value)), lookupField fs "id" = none →
      decodeSuccessResponse dT (.obj fs) = .error .truncated) ∧
    (∀ fs : List (String × Value), lookupField fs "id" = none →
      decodeErrorResponse (.obj fs) = .error .truncated) ∧
    (∀ (fs : List (String × Value)) (m : ServerRequestMethod),
      lookupField fs "id" = none →
      decodeServerRequestMethodFields fs = .ok m →
      decodeToServerRequest (.obj fs) = .ok ⟨none, m⟩) ∧
    ∀ (fs : List (String × Value)) (m : ServerRequestMethod)
        (n : Fin 4294967296),
      lookupField fs "id" = some (.int n.val) →
      decodeServerRequestMethodFields fs = .ok m →
      decodeToServerRequest (.obj fs) = .ok ⟨some n, m⟩ := by
  refine ⟨fun T dT fs h => ?_, fun fs h => ?_, fun fs m h hm => ?_,
    fun fs m n h hm => ?_⟩
  · simp [decodeSuccessResponse, h]
  · simp [decodeErrorResponse, h]
  · simp [decodeToServerRequest, decodeIdField, h, hm]
  · simp [decodeToServerRequest, decodeIdField, h, decodeU32_int, hm]

/-- Witness for C3: the empty response map (no id field) fails to decode
as an error response. -/
theorem C3_response_id_mandatory_witness :
    decodeErrorResponse (.obj []) = .error .truncated :=
  C3_response_id_mandatory_request_id_optional.2.1 [] rfl

/-- C4 counterexample: `gethostname` is a zero-param method, yet an
envelope carrying only its method tag fails to decode — its payload is the
newtype `EmptyResult`, whose content field the adjacently tagged decoder
requires. -/
theorem C4_counterexample :
    decodeToServerRequest (.obj [("method", .str "gethostname")]) =
      .error .malformedParams := rfl

/-- C4 amended: of the zero-param methods only the unit variant `prune`
decodes with the params field omitted (and encodes without one); `ping`
and `gethostname` wrap the empty struct `EmptyResult`, so they fail to
decode when the params field is omitted, decode when it carries an empty
map, and encode with an empty params map. -/
theorem C4_amended_zero_param_methods :
    decodeToServerRequest (.obj [("method", .str "prune")]) =
      .ok ⟨none, .prune⟩ ∧
    decodeToServerRequest (.obj [("method", .str "ping")]) =
      .error .malformedParams ∧
    decodeToServerRequest (.obj [("method", .str "gethostname")]) =
      .error .malformedParams ∧
    decodeToServerRequest (.obj [("method", .str "ping"), ("params", .obj [])]) =
      .ok ⟨none, .ping ⟨⟩⟩ ∧
    decodeToServerRequest
      (.obj [("method", .str "gethostname"), ("params", .obj [])]) =
      .ok ⟨none, .gethostname ⟨⟩⟩ ∧
    encodeServerRequestMethodFields .prune = [("method", .str "prune")] ∧
    encodeServerRequestMethodFields (.ping ⟨⟩) =
      [("method", .str "ping"), ("params", .obj [])] ∧
    encodeServerRequestMethodFields (.gethostname ⟨⟩) =
      [("method", .str "gethostname"), ("params", .obj [])] :=
  ⟨rfl, rfl, rfl, rfl, rfl, rfl, rfl, rfl⟩

/-- C5: for every 16-bit channel index and byte sequence, decoding as a
server-bound `servermsg` (the owned `ServerMessageParams` shape) the
encoding of the client-bound `servermsg` built from the borrowed-slice
`RefServerMessageParams` shape yields exactly the same index and bytes:
the two shapes denote the same wire message. -/
theorem C5_servermsg_shapes_agree (i : Fin 65536) (b : List (Fin 256))
    (id : Option (Fin 4294967296)) :
    decodeToServerRequest (encodeToClientRequest ⟨id, .servermsg ⟨i, b⟩⟩) =
      .ok ⟨id, .servermsg ⟨i, b⟩⟩ := by
  have henc : encodeRefServerMessageParams ⟨i, b⟩ =
      encodeServerMessageParams ⟨i, b⟩ := rfl
  simp [encodeToClientRequest, encodeClientRequestMethodFields,
    decodeToServerRequest, decodeIdField_cons, decodeServerRequestMethodFields,
    lookupField, dispatchServerMethod, requireContent, henc,
    decodeServerMessageParams_encode]

/-- C6: an error response's wire form carries exactly the integer code and
the message string inside the error object, and encoding then decoding an
error response whose code is in the signed 32-bit range preserves the id,
the code, and the message verbatim. -/
theorem C6_error_response_verbatim (e : ErrorResponse)
    (h1 : -2147483648 ≤ e.error.code) (h2 : e.error.code < 2147483648) :
    decodeErrorResponse (encodeErrorResponse e) = .ok e ∧
    encodeErrorResponse e =
      .obj [("id", .int e.id.val),
            ("error", .obj [("code", .int e.error.code),
                            ("message", .str e.error.message)])] :=
  ⟨decodeErrorResponse_encode e h1 h2, rfl⟩

/-- Witness for C6 at a concrete error response with a negative code. -/
theorem C6_error_response_verbatim_witness :
    decodeErrorResponse (encodeErrorResponse ⟨9, ⟨-3, "boom"⟩⟩) =
      .ok ⟨9, ⟨-3, "boom"⟩⟩ :=
  (C6_error_response_verbatim ⟨9, ⟨-3, "boom"⟩⟩ (by decide) (by decide)).1

/-- C7: numeric wire fields use the data model's fixed widths — a
`forward`/`unforward` params map whose port value lies outside
`0..=65535` fails to decode, the serialized `serverlog` severity level is
an integer in the 8-bit range, and the serialized `version` protocol
version is an integer in the 32-bit range. -/
theorem C7_numeric_widths :
    (∀ (fs : List (String × Value)) (n : Int),
      lookupField fs "port" = some (.int n) → (n < 0 ∨ 65535 < n) →
      decodeForwardParams (.obj fs) = .error .malformedParams ∧
      decodeUnforwardParams (.obj fs) = .error .malformedParams) ∧
    (∀ s : ServerLog, ∃ lv : Int,
      encodeServerLog s = .obj [("line", .str s.line), ("level", .int lv)] ∧
      0 ≤ lv ∧ lv < 256) ∧
    ∀ p : VersionParams, ∃ pv : Int,
      encodeVersionParams p =
        .obj [("version", .str p.version), ("protocol_version", .int pv)] ∧
      0 ≤ pv ∧ pv < 4294967296 := by
  refine ⟨fun fs n hport hrange => ?_, fun s => ?_, fun p => ?_⟩
  · have hdec : decodeU16 (.int n) = .error .malformedParams := by
      simp only [decodeU16]
      rw [dif_neg (by omega)]
    constructor <;>
      simp [decodeForwardParams, decodeUnforwardParams, requiredField, hport, hdec]
  · exact ⟨s.level.val, rfl, by omega, by have := s.level.isLt; omega⟩
  · exact ⟨p.protocol_version.val, rfl, by omega,
      by have := p.protocol_version.isLt; omega⟩

/-- Witness for C7: an out-of-range port value is rejected. -/
theorem C7_numeric_widths_witness :
    decodeForwardParams (.obj [("port", .int 70000)]) =
      .error .malformedParams :=
  (C7_numeric_widths.1 [("port", .int 70000)] 70000 rfl
    (Or.inr (by decide))).1

/-- C8 counterexample: the `callserverhttp` optional body is not carried as
a raw byte array — a params map whose body is the raw byte string fails to
decode, while the same bytes as a sequence of individually encoded
integers decode successfully (the field is a plain `Option<Vec<u8>>`
without the `serde_bytes` attribute). -/
theorem C8_counterexample :
    decodeCallServerHttpParams (.obj [("path", .str "/"), ("method", .str "GET"),
      ("headers", .obj []), ("body", .bytes [104, 105])]) =
      .error .malformedParams ∧
    decodeCallServerHttpParams (.obj [("path", .str "/"), ("method", .str "GET"),
      ("headers", .obj []), ("body", .arr [.int 104, .int 105])]) =
      .ok ⟨"/", "GET", [], some [104, 105]⟩ :=
  ⟨rfl, rfl⟩

/-- C8 amended: the binary fields carrying `serde_bytes` — the `servermsg`
body and the `httpbody` segment — are raw byte strings on the wire (their
decoders reject integer sequences), and non-binary fields use
text/integer/boolean wire forms; the `callserverhttp` optional body,
which lacks `serde_bytes`, is instead a sequence of individually encoded
integers. -/
theorem C8_amended_binary_encodings :
    (∀ p : RefServerMessageParams,
      encodeRefServerMessageParams p =
        .obj [("i", .int p.i.val), ("body", .bytes p.body)]) ∧
    (∀ p : HttpBodyParams,
      encodeHttpBodyParams p =
        .obj [("segment", .bytes p.segment), ("complete", .bool p.complete),
              ("req_id", .int p.req_id.val)]) ∧
    (∀ p : CallServerHttpParams,
      encodeCallServerHttpParams p =
        .obj [("path", .str p.path), ("method", .str p.method),
              ("headers", encodeStringMap p.headers),
              ("body", encodeOptByteSeq p.body)]) ∧
    (∀ bs : List (Fin 256),
      encodeOptByteSeq (some bs) = .arr (bs.map fun b => .int b.val)) ∧
    decodeServerMessageParams (.obj [("i", .int 3), ("body", .arr [.int 104])]) =
      .error .malformedParams ∧
    decodeServerMessageParams (.obj [("i", .int 3), ("body", .bytes [104])]) =
      .ok ⟨3, [104]⟩ ∧
    decodeHttpBodyParams (.obj [("segment", .arr [.int 104]),
      ("complete", .bool true), ("req_id", .int 1)]) =
      .error .malformedParams ∧
    decodeHttpBodyParams (.obj [("segment", .bytes [104]),
      ("complete", .bool true), ("req_id", .int 1)]) = .ok ⟨[104], true, 1⟩ :=
  ⟨fun _ => rfl, fun _ => rfl, fun _ => rfl, fun _ => rfl, rfl, rfl, rfl, rfl⟩

/-- C9: `serve` params decode with `use_local_download` defaulting to
`false` when the field is absent; `socket_id`, `quality` and `extensions`
have no default, so their absence fails the decode; `commit_id` may be
absent or null, yielding `none`. -/
theorem C9_serve_params_defaults :
    (∀ (fs : List (String × Value)) (p : ServeParams),
      lookupField fs "use_local_download" = none →
      decodeServeParams (.obj fs) = .ok p → p.use_local_download = false) ∧
    (∀ fs : List (String × Value), lookupField fs "socket_id" = none →
      decodeServeParams (.obj fs) = .error .malformedParams) ∧
    (∀ (fs : List (String × Value)) (p : ServeParams),
      lookupField fs "quality" = none → decodeServeParams (.obj fs) ≠ .ok p) ∧
    (∀ (fs : List (String × Value)) (p : ServeParams),
      lookupField fs "extensions" = none →
      decodeServeParams (.obj fs) ≠ .ok p) ∧
    (∀ (fs : List (String × Value)) (p : ServeParams),
      lookupField fs "commit_id" = none →
      decodeServeParams (.obj fs) = .ok p → p.commit_id = none) ∧
    (∀ (fs : List (String × Value)) (p : ServeParams),
      lookupField fs "commit_id" = some .null →
      decodeServeParams (.obj fs) = .ok p → p.commit_id = none) ∧
    decodeServeParams (.obj [("socket_id", .int 4), ("quality", .str "stable"),
      ("extensions", .arr [])]) = .ok ⟨4, none, .stable, [], false⟩ := by
  refine ⟨fun fs p hnone hp => ?_, fun fs hnone => ?_, fun fs p hnone hp => ?_,
    fun fs p hnone hp => ?_, fun fs p hnone hp => ?_, fun fs p hnone hp => ?_,
    by rfl⟩
  · simp only [decodeServeParams] at hp
    rcases bind_eq_ok.mp hp with ⟨sid, hsid, hp2⟩
    rcases bind_eq_ok.mp hp2 with ⟨cid, hcid, hp3⟩
    rcases bind_eq_ok.mp hp3 with ⟨q, hq, hp4⟩
    rcases bind_eq_ok.mp hp4 with ⟨ext, hext, hp5⟩
    rcases bind_eq_ok.mp hp5 with ⟨uld, huld, hp6⟩
    have huld2 : uld = false := by
      unfold defaultField at huld
      rw [hnone] at huld
      injection huld with h
      exact h.symm
    injection hp6 with h
    rw [← h, huld2]
  · have hreq : requiredField fs "socket_id" decodeU16 = .error .malformedParams := by
      unfold requiredField
      rw [hnone]
    simp [decodeServeParams, hreq]
  · simp only [decodeServeParams] at hp
    rcases bind_eq_ok.mp hp with ⟨sid, hsid, hp2⟩
    rcases bind_eq_ok.mp hp2 with ⟨cid, hcid, hp3⟩
    rcases bind_eq_ok.mp hp3 with ⟨q, hq, hp4⟩
    unfold requiredField at hq
    rw [hnone] at hq
    exact Except.noConfusion hq
  · simp only [decodeServeParams] at hp
    rcases bind_eq_ok.mp hp with ⟨sid, hsid, hp2⟩
    rcases bind_eq_ok.mp hp2 with ⟨cid, hcid, hp3⟩
    rcases bind_eq_ok.mp hp3 with ⟨q, hq, hp4⟩
    rcases bind_eq_ok.mp hp4 with ⟨ext, hext, hp5⟩
    unfold requiredField at hext
    rw [hnone] at hext
    exact Except.noConfusion hext
  · simp only [decodeServeParams] at hp
    rcases bind_eq_ok.mp hp with ⟨sid, hsid, hp2⟩
    rcases bind_eq_ok.mp hp2 with ⟨cid, hcid, hp3⟩
    rcases bind_eq_ok.mp hp3 with ⟨q, hq, hp4⟩
    rcases bind_eq_ok.mp hp4 with ⟨ext, hext, hp5⟩
    rcases bind_eq_ok.mp hp5 with ⟨uld, huld, hp6⟩
    have hcid2 : cid = none := by
      unfold optionalField at hcid
      rw [hnone] at hcid
      injection hcid with h
      exact h.symm
    injection hp6 with h
    rw [← h, hcid2]
  · simp only [decodeServeParams] at hp
    rcases bind_eq_ok.mp hp with ⟨sid, hsid, hp2⟩
    rcases bind_eq_ok.mp hp2 with ⟨cid, hcid, hp3⟩
    rcases bind_eq_ok.mp hp3 with ⟨q, hq, hp4⟩
    rcases bind_eq_ok.mp hp4 with ⟨ext, hext, hp5⟩
    rcases bind_eq_ok.mp hp5 with ⟨uld, huld, hp6⟩
    have hcid2 : cid = none := by
      unfold optionalField at hcid
      rw [hnone] at hcid
      injection hcid with h
      exact h.symm
    injection hp6 with h
    rw [← h, hcid2]

/-- Witness for C9: serve params with `socket_id` missing fail to decode. -/
theorem C9_serve_params_defaults_witness :
    decodeServeParams (.obj [("quality", .str "stable")]) =
      .error .malformedParams :=
  C9_serve_params_defaults.2.1 [("quality", .str "stable")] rfl

/-- C10: a recognized params object that contains an extra unrecognized
field decodes to the same result as the object without it — unknown fields
are ignored, not rejected (shown for `ForwardParams` and
`HttpHeadersParams`, with the extra field inserted anywhere). -/
theorem C10_unknown_fields_ignored :
    (∀ (fs1 fs2 : List (String × Value)) (k : String) (v : Value),
      k ≠ "port" →
      decodeForwardParams (.obj (fs1 ++ (k, v) :: fs2)) =
        decodeForwardParams (.obj (fs1 ++ fs2))) ∧
    (∀ (fs1 fs2 : List (String × Value)) (k : String) (v : Value),
      k ≠ "status_code" → k ≠ "headers" → k ≠ "req_id" →
      decodeHttpHeadersParams (.obj (fs1 ++ (k, v) :: fs2)) =
        decodeHttpHeadersParams (.obj (fs1 ++ fs2))) ∧
    decodeForwardParams (.obj [("port", .int 8080), ("color", .str "green")]) =
      .ok ⟨8080⟩ := by
  refine ⟨fun fs1 fs2 k v hk => ?_, fun fs1 fs2 k v hk1 hk2 hk3 => ?_, by rfl⟩
  · simp only [decodeForwardParams, requiredField,
      lookupField_append_cons fs1 fs2 k v "port" hk]
  · simp only [decodeHttpHeadersParams, requiredField,
      lookupField_append_cons fs1 fs2 k v "status_code" hk1,
      lookupField_append_cons fs1 fs2 k v "headers" hk2,
      lookupField_append_cons fs1 fs2 k v "req_id" hk3]

/-- Witness for C10: appending an unrecognized field leaves the decode of
concrete forward params unchanged. -/
theorem C10_unknown_fields_ignored_witness :
    decodeForwardParams
      (.obj ([("port", Value.int 8080)] ++ ("color", Value.str "green") :: [])) =
      decodeForwardParams (.obj ([("port", Value.int 8080)] ++ [])) :=
  C10_unknown_fields_ignored.1 [("port", .int 8080)] [] "color"
    (.str "green") (by decide)

end Protocol
